import Mathlib

/-!
Verification development for the JAXA Earth Soundscape generator
(`src/app.py`).  Python floats are modelled as exact rationals (`ℚ`),
Python ints as `ℤ`/`ℕ`.  numpy's seeded generator `np.random.default_rng`
is modelled as an abstract deterministic stream indexed by the seed and
the number of draws consumed so far (see `NumpyModel`); numpy rejects a
negative integer seed with a `ValueError`, which the model reflects by
returning `none` on the paths that construct a generator from a negative
seed.  `np.sin` is likewise an abstract real-valued oracle `ℚ → ℚ`,
since exact rational arithmetic cannot host the transcendental sine.
-/

namespace App

/-- Python `int(x)` applied to a float: truncation toward zero. -/
def pyInt (q : ℚ) : ℤ := if 0 ≤ q then ⌊q⌋ else ⌈q⌉

/-- numpy `np.sign` on a scalar. -/
def pySign (q : ℚ) : ℚ := if 0 < q then 1 else if q < 0 then -1 else 0

/-- `normalize` from `src/app.py` lines 36-39: clamp the affinely rescaled
value into `[0,1]`, with a degenerate-domain guard returning `0.0`. -/
def normalize (value lower upper : ℚ) : ℚ :=
  if upper ≤ lower then 0
  else max 0 (min 1 ((value - lower) / (upper - lower)))

/-- Model of the numpy random interface used by the program: `unit s k` is
the `k`-th uniform `[0,1)` variate of the generator seeded with `s`
(`rng.uniform` rescales it), `gauss s k` the `k`-th standard-normal
variate (`rng.normal(0, 1, n)` draws `n` of them in order).  Each
function is pure, so a generator freshly constructed from a seed always
replays the same stream — the documented numpy guarantee. -/
structure NumpyModel where
  unit : ℤ → ℕ → ℚ
  gauss : ℤ → ℕ → ℚ
  sin : ℚ → ℚ

/-- The numpy contract for uniform variates: they lie in `[0, 1)`. -/
def UnitContract (np : NumpyModel) : Prop :=
  ∀ s k, 0 ≤ np.unit s k ∧ np.unit s k < 1

/-- `rng.uniform(lo, hi)` consuming the `k`-th variate of seed `s`. -/
def uniformDraw (np : NumpyModel) (s : ℤ) (k : ℕ) (lo hi : ℚ) : ℚ :=
  lo + (hi - lo) * np.unit s k

/-- A concrete conforming generator model, used to instantiate theorems at
closed inputs. -/
def np0 : NumpyModel := ⟨fun _ _ => 1/2, fun _ _ => 0, fun _ => 0⟩

/-- A second concrete generator model whose sine oracle is constantly `1`,
convenient for exhibiting a loud audio sample. -/
def np1 : NumpyModel := ⟨fun _ _ => 1/2, fun _ _ => 0, fun _ => 1⟩

/-- `calendar.isleap`. -/
def isleap (y : ℕ) : Bool := y % 4 = 0 && (y % 100 ≠ 0 || y % 400 = 0)

/-- The second component of `calendar.monthrange(y, m)`: the number of
days in the month (months `1..12`). -/
def monthrange_days (y m : ℕ) : ℕ :=
  if m = 2 then (if isleap y then 29 else 28)
  else if m = 4 ∨ m = 6 ∨ m = 9 ∨ m = 11 then 30 else 31

/-- The year/month stepping of `previous_month_range` (`src/app.py`
lines 22-28). -/
def previous_month (year month : ℕ) : ℕ × ℕ :=
  if month = 1 then (year - 1, 12) else (year, month - 1)

/-- Two-digit zero padding, as in `date.isoformat` month/day fields. -/
def pad2 (n : ℕ) : String := if n < 10 then "0" ++ toString n else toString n

/-- Four-digit zero padding, as in `date.isoformat` year field. -/
def pad4 (n : ℕ) : String :=
  if n < 10 then "000" ++ toString n
  else if n < 100 then "00" ++ toString n
  else if n < 1000 then "0" ++ toString n
  else toString n

/-- `date(y, m, d).isoformat()`. -/
def isoDate (y m d : ℕ) : String := pad4 y ++ "-" ++ pad2 m ++ "-" ++ pad2 d

/-- A `datetime.date` value (assumed valid: `1 ≤ year ≤ 9999`,
`1 ≤ month ≤ 12`, day in range). -/
structure PyDate where
  year : ℕ
  month : ℕ
  day : ℕ
deriving DecidableEq

/-- `previous_month_range` from `src/app.py` lines 21-33: step back one
calendar month and span it.  `datetime.date` rejects years below 1
(`ValueError`), so stepping back from January of year 1 fails; the model
returns `none` there. -/
def previous_month_range (t : PyDate) : Option (String × String) :=
  let p := previous_month t.year t.month
  if p.1 < 1 then none
  else some (isoDate p.1 p.2 1, isoDate p.1 p.2 (monthrange_days p.1 p.2))

/-- Modelled from the spec: the repository variant computing the
"two months before" window is not in `src/`; per the spec the retrieval
range may also step back two full calendar months from the target month
and span that entire month, first day to last day inclusive. -/
def two_months_before_range (t : PyDate) : Option (String × String) :=
  let p1 := previous_month t.year t.month
  let p := previous_month p1.1 p1.2
  if p.1 < 1 then none
  else some (isoDate p.1 p.2 1, isoDate p.1 p.2 (monthrange_days p.1 p.2))

/-- The seed of `fallback_satellite_values`:
`int((abs(lat) * 1000) + (abs(lon) * 1000))`. -/
def fallback_seed (lat lon : ℚ) : ℤ := pyInt (|lat| * 1000 + |lon| * 1000)

/-- The measurement triplet (the dict `{ndvi, lst, precip}`). -/
structure Triplet where
  ndvi : ℚ
  lst : ℚ
  precip : ℚ
deriving DecidableEq

/-- `fallback_satellite_values` from `src/app.py` lines 42-49: a fresh
generator seeded from the coordinates, then three uniform draws in
order. -/
def fallback_satellite_values (np : NumpyModel) (lat lon : ℚ) : Triplet :=
  let seed := fallback_seed lat lon
  { ndvi := uniformDraw np seed 0 0.1 0.9
    lst := uniformDraw np seed 1 5.0 40.0
    precip := uniformDraw np seed 2 20.0 450.0 }

/-- A PIL drawing primitive, as issued by `create_space_landscape`.  The
image is fully determined by the ordered command list (rasterization and
PNG encoding are pure functions of it), so two equal command lists give
byte-identical images. -/
inductive DrawCmd where
  | line (x1 y1 x2 y2 : ℤ) (fill : ℤ × ℤ × ℤ)
  | ellipse (x1 y1 x2 y2 : ℤ) (fill : ℤ × ℤ × ℤ)
  | rectangle (x1 y1 x2 y2 : ℤ) (fill : ℤ × ℤ × ℤ)
  | ellipseOutline (x1 y1 x2 y2 : ℤ) (fill outline : ℤ × ℤ × ℤ) (w : ℕ)
  | overlay (r g b a : ℤ)
deriving DecidableEq

/-- Whether a command is the translucent atmospheric-glow compositing step
(`Image.alpha_composite` with the uniform warm RGBA layer). -/
def DrawCmd.isOverlay : DrawCmd → Bool
  | .overlay _ _ _ _ => true
  | _ => false

/-- `cmds.any isOverlay`: the scene contains the warm glow overlay. -/
def hasOverlay (cmds : List DrawCmd) : Bool := cmds.any DrawCmd.isOverlay

/-- The scene generator seed, `src/app.py` line 143:
`int(ndvi_n * 1000 + precip_n * 2000 + lst_n * 3000)`. -/
def scene_seed (ndvi_n precip_n lst_n : ℚ) : ℤ :=
  pyInt (ndvi_n * 1000 + precip_n * 2000 + lst_n * 3000)

/-- `water_count = int(1 + precip_n * 5)` (`src/app.py` line 155). -/
def water_count (precip_n : ℚ) : ℤ := pyInt (1 + precip_n * 5)

/-- The vertical extent `y2 - y1 = int(90 + precip_n * 90)` of each water
body (`src/app.py` line 160). -/
def water_height (precip_n : ℚ) : ℤ := pyInt (90 + precip_n * 90)

/-- `x2 = int(x1 + width * 0.35)` for a water body (`src/app.py`
line 158), with `width = 720`. -/
def water_x2 (x1 : ℤ) : ℤ := pyInt ((x1 : ℚ) + 720 * 0.35)

/-- `tree_count = int(4 + ndvi_n * 26)` (`src/app.py` line 163). -/
def tree_count (ndvi_n : ℚ) : ℤ := pyInt (4 + ndvi_n * 26)

/-- The glow overlay alpha `int(70 * lst_n)` (`src/app.py` line 177). -/
def glow_alpha (lst_n : ℚ) : ℤ := pyInt (70 * lst_n)

/-- Sky gradient scanlines, `src/app.py` lines 129-141: one full-width
line per row, linearly blending the `lst_n`-dependent top and bottom
colors. -/
def gradientCmds (lst_n : ℚ) : List DrawCmd :=
  let skyTop : ℤ × ℤ × ℤ :=
    (25 + pyInt (40 * lst_n), 22 + pyInt (35 * lst_n), 70 + pyInt (60 * lst_n))
  let skyBottom : ℤ × ℤ × ℤ := (250, 245, 180 + pyInt (50 * lst_n))
  (List.range 1280).map fun (y : ℕ) =>
    let t : ℚ := (y : ℚ) / max 1 ((1280 : ℚ) - 1)
    DrawCmd.line 0 (y : ℤ) 720 (y : ℤ)
      (pyInt ((skyTop.1 : ℚ) * (1 - t) + (skyBottom.1 : ℚ) * t),
       pyInt ((skyTop.2.1 : ℚ) * (1 - t) + (skyBottom.2.1 : ℚ) * t),
       pyInt ((skyTop.2.2 : ℚ) * (1 - t) + (skyBottom.2.2 : ℚ) * t))

/-- Starfield, `src/app.py` lines 144-149: 220 small ellipses; each
iteration consumes four uniform draws (x, y, size, blue channel) from the
scene generator, in order. -/
def starCmds (np : NumpyModel) (seed : ℤ) : List DrawCmd :=
  (List.range 220).map fun j =>
    let x := pyInt (uniformDraw np seed (4 * j) 0 720)
    let y := pyInt (uniformDraw np seed (4 * j + 1) 0 ((1280 : ℚ) * 0.55))
    let size := pyInt (uniformDraw np seed (4 * j + 2) 1 3)
    let cb := pyInt (uniformDraw np seed (4 * j + 3) 180 255)
    DrawCmd.ellipse x y (x + size) (y + size) (255, 255, cb)

/-- Ground band, `src/app.py` lines 151-153. -/
def groundCmd (ndvi_n : ℚ) (ground_y : ℤ) : DrawCmd :=
  DrawCmd.rectangle 0 ground_y 720 1280 (80, 60 + pyInt (80 * ndvi_n), 40)

/-- Water bodies, `src/app.py` lines 155-161. -/
def waterCmds (precip_n : ℚ) (ground_y : ℤ) : List DrawCmd :=
  let wc := water_count precip_n
  (List.range wc.toNat).map fun (i : ℕ) =>
    let x1 := pyInt (((i : ℚ) / ((max 1 wc : ℤ) : ℚ)) * 720 * 0.9)
    let x2 := water_x2 x1
    let y1 := ground_y + 80 + (i : ℤ) * 30
    let y2 := y1 + water_height precip_n
    DrawCmd.ellipse x1 y1 x2 y2 (70, 140, 210)

/-- Trees, `src/app.py` lines 163-174: trunk rectangle then crown
ellipse; each iteration consumes two uniform draws, continuing the scene
generator stream after the 880 star draws. -/
def treeCmds (np : NumpyModel) (seed : ℤ) (ndvi_n : ℚ) (ground_y : ℤ) : List DrawCmd :=
  (List.range (tree_count ndvi_n).toNat).flatMap fun (i : ℕ) =>
    let tx := pyInt (uniformDraw np seed (880 + 2 * i) 20 (720 - 20))
    let ty := pyInt (uniformDraw np seed (880 + 2 * i + 1) ((ground_y : ℚ) - 80) ((1280 : ℚ) - 80))
    let crown_r := pyInt (18 + ndvi_n * 14)
    [DrawCmd.rectangle tx ty (tx + 8) (ty + 22) (90, 50, 20),
     DrawCmd.ellipse (tx - crown_r) (ty - crown_r) (tx + 8 + crown_r) (ty + crown_r)
       (30, 110 + pyInt (ndvi_n * 120), 40)]

/-- Atmospheric glow, `src/app.py` lines 176-178: present exactly when
`lst_n > 0.5`, alpha `int(70 * lst_n)`. -/
def glowCmds (lst_n : ℚ) : List DrawCmd :=
  if lst_n > 0.5 then [DrawCmd.overlay 255 245 180 (glow_alpha lst_n)] else []

/-- Celestial body, `src/app.py` lines 180-183. -/
def celestialCmd (lst_n : ℚ) : DrawCmd :=
  let base_brightness := pyInt (40 + lst_n * 130)
  let px := pyInt ((720 : ℚ) * 0.78)
  let py := pyInt ((1280 : ℚ) * 0.2)
  let pr := pyInt (80 + (base_brightness : ℚ) * 0.2)
  DrawCmd.ellipseOutline (px - pr) (py - pr) (px + pr) (py + pr)
    (255, 230, 130) (255, 255, 255) 3

/-- `create_space_landscape` from `src/app.py` lines 122-185, as the
ordered list of drawing operations: sky gradient, stars, ground, water,
trees, optional glow compositing, celestial body. -/
def create_space_landscape (np : NumpyModel) (ndvi lst precip : ℚ) : List DrawCmd :=
  let ndvi_n := normalize ndvi 0.0 1.0
  let lst_n := normalize lst (-10.0) 45.0
  let precip_n := normalize precip 0.0 500.0
  let ground_y : ℤ := pyInt ((1280 : ℚ) * 0.62)
  let seed := scene_seed ndvi_n precip_n lst_n
  gradientCmds lst_n ++ starCmds np seed ++ [groundCmd ndvi_n ground_y] ++
    waterCmds precip_n ground_y ++ treeCmds np seed ndvi_n ground_y ++
    glowCmds lst_n ++ [celestialCmd lst_n]

/-- The float64 value printed for `np.pi` (its exact value is irrelevant
here: the sine oracle is abstract). -/
def np_pi : ℚ := 3.141592653589793

/-- The audio noise seed, `src/app.py` line 210:
`int((ndvi + lst + precip) * 1000)` — raw measurements, not normalized. -/
def audioSeed (ndvi lst precip : ℚ) : ℤ := pyInt ((ndvi + lst + precip) * 1000)

/-- The standard-normal draws `rng.normal(0, 1, count)` of the generator
seeded with `seed`. -/
def rawNoiseSamples (np : NumpyModel) (seed : ℤ) (count : ℕ) : List ℚ :=
  (List.range count).map fun k => np.gauss seed k

/-- The Gaussian rain-noise texture of `synthesize_music` before its
`0.04 * precip_n` amplitude factor: `np.random.default_rng` rejects a
negative seed, hence `none` there. -/
def rain_noise_texture (np : NumpyModel) (ndvi lst precip : ℚ) (count : ℕ) :
    Option (List ℚ) :=
  if audioSeed ndvi lst precip < 0 then none
  else some (rawNoiseSamples np (audioSeed ndvi lst precip) count)

/-- Sample `k` of the gated mix `(acoustic + synth + rain_noise) * gate`
of `src/app.py` lines 194-213, at sample rate 44100 over
`duration_sec * 44100` samples (`np.linspace` with `endpoint=False`). -/
def audioSample (np : NumpyModel) (ndvi lst precip : ℚ) (duration_sec : ℕ) (k : ℕ) : ℚ :=
  let ndvi_n := normalize ndvi 0.0 1.0
  let lst_n := normalize lst (-10.0) 45.0
  let precip_n := normalize precip 0.0 500.0
  let tempo : ℤ := 75 + pyInt (lst_n * 95)
  let beat_sec : ℚ := 60.0 / (tempo : ℚ)
  let t : ℚ := (k : ℚ) * (duration_sec : ℚ) / ((duration_sec : ℚ) * 44100)
  let acoustic :=
    (0.6 * np.sin (2 * np_pi * 220 * t)
      + 0.3 * np.sin (2 * np_pi * 330 * t)
      + 0.2 * np.sin (2 * np_pi * 440 * t)) * (0.2 + 0.8 * ndvi_n)
  let synth_freq := 110 + precip_n * 330
  let synth := pySign (np.sin (2 * np_pi * synth_freq * t)) * (0.15 + 0.85 * precip_n)
  let gate := 0.35 + 0.65 * (if 0 < np.sin (2 * np_pi * (1 / beat_sec) * t) then (1 : ℚ) else 0)
  let rain := np.gauss (audioSeed ndvi lst precip) k * 0.04 * precip_n
  (acoustic + synth + rain) * gate

/-- The full pre-normalization sample vector `audio` of
`synthesize_music`. -/
def rawAudio (np : NumpyModel) (ndvi lst precip : ℚ) (duration_sec : ℕ) : List ℚ :=
  (List.range (duration_sec * 44100)).map (audioSample np ndvi lst precip duration_sec)

/-- `np.max` of the absolute values of a sample vector (0 for the empty
vector; `np.max` itself raises on an empty array, which the caller
guards). -/
def maxAbs (xs : List ℚ) : ℚ := xs.foldl (fun a x => max a |x|) 0

/-- Peak normalization `audio / np.max(np.abs(audio) + 1e-8)`
(`src/app.py` line 214).  numpy adds `1e-8` to every entry before the
max; since all entries of `np.abs(audio)` are nonnegative this equals
`maxAbs audio + 1e-8`, which is how the denominator is written here. -/
def peakNormalize (xs : List ℚ) : List ℚ :=
  xs.map fun x => x / (maxAbs xs + 1e-8)

/-- `.astype(np.int16)` on one float sample: C-style truncation toward
zero, then wraparound into the signed 16-bit range. -/
def toInt16 (q : ℚ) : ℤ := (pyInt q + 32768) % 65536 - 32768

/-- `(audio * 32767).astype(np.int16)` (`src/app.py` line 215). -/
def quantize16 (xs : List ℚ) : List ℤ := xs.map fun x => toInt16 (x * 32767)

/-- Largest absolute value of the quantized samples. -/
def maxAbsInt (xs : List ℤ) : ℤ := xs.foldl (fun a x => max a |x|) 0

/-- The WAV container written by `synthesize_music`: mono, two bytes per
sample, 44100 Hz, plus the frame data.  The encoded byte buffer is a pure
function of this record. -/
structure WavData where
  nchannels : ℕ
  sampwidth : ℕ
  framerate : ℕ
  frames : List ℤ
deriving DecidableEq

/-- `synthesize_music` from `src/app.py` lines 188-223.  `none` models
the two raising paths: `np.random.default_rng` on a negative noise seed,
and `np.max` on an empty array (duration 0). -/
def synthesize_music (np : NumpyModel) (ndvi lst precip : ℚ)
    (duration_sec : ℕ) : Option WavData :=
  if audioSeed ndvi lst precip < 0 then none
  else if duration_sec = 0 then none
  else some ⟨1, 2, 44100,
    quantize16 (peakNormalize (rawAudio np ndvi lst precip duration_sec))⟩

/-- Every frame of an encoded result lies in the signed 16-bit range
(vacuously true of the raising paths). -/
def framesWithin (w : Option WavData) : Bool :=
  match w with
  | none => true
  | some w => w.frames.all fun s => decide (-32768 ≤ s) && decide (s ≤ 32767)

/-- The truncation `pyInt` is nonnegative on nonnegative inputs. -/
theorem pyInt_nonneg {q : ℚ} (h : 0 ≤ q) : 0 ≤ pyInt q := by
  unfold pyInt
  rw [if_pos h]
  exact Int.le_floor.mpr (by exact_mod_cast h)

/-- The truncation `pyInt` is monotone. -/
theorem pyInt_mono {q r : ℚ} (h : q ≤ r) : pyInt q ≤ pyInt r := by
  unfold pyInt
  by_cases hq : 0 ≤ q
  · rw [if_pos hq, if_pos (le_trans hq h)]
    exact Int.floor_le_floor h
  · rw [if_neg hq]
    by_cases hr : 0 ≤ r
    · rw [if_pos hr]
      have h1 : ⌈q⌉ ≤ 0 := Int.ceil_le.mpr (by exact_mod_cast le_of_lt (lt_of_not_le hq))
      have h2 : (0 : ℤ) ≤ ⌊r⌋ := Int.le_floor.mpr (by exact_mod_cast hr)
      omega
    · rw [if_neg hr]
      exact Int.ceil_le_ceil h

/-- Truncation toward zero never increases the absolute value. -/
theorem abs_pyInt_le (q : ℚ) : |(pyInt q : ℚ)| ≤ |q| := by
  unfold pyInt
  by_cases hq : 0 ≤ q
  · rw [if_pos hq]
    have h0 : (0 : ℤ) ≤ ⌊q⌋ := Int.le_floor.mpr (by exact_mod_cast hq)
    rw [abs_of_nonneg hq, abs_of_nonneg (by exact_mod_cast h0 : (0 : ℚ) ≤ (⌊q⌋ : ℚ))]
    exact Int.floor_le q
  · rw [if_neg hq]
    have hq' : q < 0 := lt_of_not_le hq
    have h0 : ⌈q⌉ ≤ 0 := Int.ceil_le.mpr (by exact_mod_cast hq'.le)
    rw [abs_of_nonpos hq'.le, abs_of_nonpos (by exact_mod_cast h0 : (⌈q⌉ : ℚ) ≤ 0)]
    rw [neg_le_neg_iff]
    exact Int.le_ceil q

/-- `normalize` never returns a negative value. -/
theorem normalize_nonneg (v lo hi : ℚ) : 0 ≤ normalize v lo hi := by
  unfold normalize
  split
  · exact le_refl 0
  · exact le_max_left 0 _

/-- `normalize` never exceeds one. -/
theorem normalize_le_one (v lo hi : ℚ) : normalize v lo hi ≤ 1 := by
  unfold normalize
  split
  · norm_num
  · exact max_le (by norm_num) (min_le_left 1 _)

/-- `normalize` is monotone in the value argument. -/
theorem normalize_mono {v w : ℚ} (lo hi : ℚ) (h : v ≤ w) :
    normalize v lo hi ≤ normalize w lo hi := by
  unfold normalize
  split
  · exact le_refl 0
  · rename_i hlt
    push_neg at hlt
    have hw : 0 < hi - lo := by linarith
    refine max_le_max (le_refl 0) (min_le_min (le_refl 1) ?_)
    have hvw : v - lo ≤ w - lo := by linarith
    exact div_le_div_of_nonneg_right hvw hw.le

/-- Folding `max` over mapped values never drops below the seed. -/
theorem foldl_max_init_le {α β : Type} [LinearOrder α] (f : β → α) :
    ∀ (l : List β) (a : α), a ≤ l.foldl (fun b x => max b (f x)) a
  | [], a => le_refl a
  | x :: l, a => le_trans (le_max_left a (f x)) (foldl_max_init_le f l (max a (f x)))

/-- Every mapped member is below the `max` fold. -/
theorem le_foldl_max {α β : Type} [LinearOrder α] (f : β → α) (l : List β) :
    ∀ (a : α) (x : β), x ∈ l → f x ≤ l.foldl (fun b y => max b (f y)) a := by
  induction l with
  | nil => intro a x hx; cases hx
  | cons y l ih =>
    intro a x hx
    rcases List.mem_cons.mp hx with rfl | hx
    · exact le_trans (le_max_right a (f x)) (foldl_max_init_le f l (max a (f x)))
    · exact ih (max a (f y)) x hx

/-- The `max` fold is the seed or a mapped member. -/
theorem foldl_max_attains {α β : Type} [LinearOrder α] (f : β → α) (l : List β) :
    ∀ a : α, l.foldl (fun b y => max b (f y)) a = a ∨
      ∃ x ∈ l, l.foldl (fun b y => max b (f y)) a = f x := by
  induction l with
  | nil => intro a; exact Or.inl rfl
  | cons y l ih =>
    intro a
    rcases ih (max a (f y)) with h | ⟨x, hx, hfx⟩
    · rcases max_choice a (f y) with hm | hm
      · exact Or.inl (by rw [List.foldl_cons, h, hm])
      · exact Or.inr ⟨y, List.mem_cons_self y l, by rw [List.foldl_cons, h, hm]⟩
    · exact Or.inr ⟨x, List.mem_cons_of_mem y hx, by rw [List.foldl_cons]; exact hfx⟩

/-- The sample peak is nonnegative. -/
theorem maxAbs_nonneg (xs : List ℚ) : 0 ≤ maxAbs xs :=
  foldl_max_init_le (fun x => |x|) xs 0

/-- Every sample is bounded by the peak. -/
theorem abs_le_maxAbs {x : ℚ} {xs : List ℚ} (h : x ∈ xs) : |x| ≤ maxAbs xs :=
  le_foldl_max (fun y => |y|) xs 0 x h

/-- A positive peak is attained by some sample. -/
theorem maxAbs_attains (xs : List ℚ) : maxAbs xs = 0 ∨ ∃ x ∈ xs, maxAbs xs = |x| :=
  foldl_max_attains (fun y => |y|) xs 0

/-- Every quantized sample is bounded by the quantized peak. -/
theorem abs_le_maxAbsInt {x : ℤ} {xs : List ℤ} (h : x ∈ xs) : |x| ≤ maxAbsInt xs :=
  le_foldl_max (fun y => |y|) xs 0 x h

/-- The int16 cast always lands in the representable range. -/
theorem toInt16_bounds (q : ℚ) : -32768 ≤ toInt16 q ∧ toInt16 q ≤ 32767 := by
  unfold toInt16
  have h1 : 0 ≤ (pyInt q + 32768) % 65536 := Int.emod_nonneg _ (by norm_num)
  have h2 : (pyInt q + 32768) % 65536 < 65536 := Int.emod_lt_of_pos _ (by norm_num)
  omega

/-- The int16 cast does not wrap inside the representable range. -/
theorem toInt16_eq_pyInt {q : ℚ} (h1 : -32768 ≤ pyInt q) (h2 : pyInt q ≤ 32767) :
    toInt16 q = pyInt q := by
  unfold toInt16
  rw [Int.emod_eq_of_lt (by omega) (by omega)]
  omega

/-- `hasOverlay` distributes over concatenation. -/
theorem hasOverlay_append (l1 l2 : List DrawCmd) :
    hasOverlay (l1 ++ l2) = (hasOverlay l1 || hasOverlay l2) := by
  unfold hasOverlay
  induction l1 with
  | nil => rfl
  | cons c l ih => simp [List.any_cons, ih, Bool.or_assoc]

/-- A mapped segment of overlay-free commands contributes no overlay. -/
theorem hasOverlay_map_false {β : Type} (f : β → DrawCmd)
    (h : ∀ b, (f b).isOverlay = false) (l : List β) :
    hasOverlay (l.map f) = false := by
  unfold hasOverlay
  induction l with
  | nil => rfl
  | cons b l ih => simp_all [List.any_cons]

/-- A flat-mapped segment of overlay-free blocks contributes no overlay. -/
theorem hasOverlay_flatMap_false {β : Type} (f : β → List DrawCmd)
    (h : ∀ b, hasOverlay (f b) = false) (l : List β) :
    hasOverlay (l.flatMap f) = false := by
  induction l with
  | nil => rfl
  | cons b l ih =>
    rw [List.flatMap_cons, hasOverlay_append, h, ih]
    rfl

/-- `pyInt` is the identity on integers. -/
theorem pyInt_intCast (z : ℤ) : pyInt (z : ℚ) = z := by
  unfold pyInt
  split
  · exact Int.floor_intCast z
  · exact Int.ceil_intCast z

/-- `rng.uniform(lo, hi)` stays in `[lo, hi]` whenever the generator meets
the numpy contract. -/
theorem uniformDraw_mem {np : NumpyModel} (hc : UnitContract np) (s : ℤ) (k : ℕ)
    {lo hi : ℚ} (h : lo ≤ hi) :
    lo ≤ uniformDraw np s k lo hi ∧ uniformDraw np s k lo hi ≤ hi := by
  obtain ⟨h0, h1⟩ := hc s k
  unfold uniformDraw
  constructor
  · nlinarith
  · nlinarith

/-- Claim C2: `normalize` returns `0.0` on a degenerate domain
(`upper ≤ lower`); otherwise it equals `(value-lower)/(upper-lower)`
clamped to `[0,1]`, hence lies in `[0,1]`, is `0.0` at `value = lower` and
`1.0` at `value = upper`. -/
theorem c2_normalize_contract (v lo hi : ℚ) :
    (hi ≤ lo → normalize v lo hi = 0)
    ∧ (lo < hi → normalize v lo hi = max 0 (min 1 ((v - lo) / (hi - lo))))
    ∧ 0 ≤ normalize v lo hi ∧ normalize v lo hi ≤ 1
    ∧ (lo < hi → v = lo → normalize v lo hi = 0)
    ∧ (lo < hi → v = hi → normalize v lo hi = 1) := by
  refine ⟨?_, ?_, normalize_nonneg v lo hi, normalize_le_one v lo hi, ?_, ?_⟩
  · intro h
    unfold normalize
    rw [if_pos h]
  · intro h
    unfold normalize
    rw [if_neg (not_le.mpr h)]
  · rintro h rfl
    unfold normalize
    rw [if_neg (not_le.mpr h)]
    norm_num
  · rintro h rfl
    unfold normalize
    rw [if_neg (not_le.mpr h), div_self (sub_ne_zero.mpr (ne_of_gt h))]
    norm_num

/-- Witness for C2 at concrete inputs. -/
theorem c2_witness :
    normalize 5 10 0 = 0 ∧ normalize 0 0 10 = 0 ∧ normalize 10 0 10 = 1 :=
  ⟨(c2_normalize_contract 5 10 0).1 (by norm_num),
   (c2_normalize_contract 0 0 10).2.2.2.2.1 (by norm_num) rfl,
   (c2_normalize_contract 10 0 10).2.2.2.2.2 (by norm_num) rfl⟩

/-- Claim C6: `fallback_satellite_values` is deterministic in the
coordinates, its seed is `int(|lat|*1000 + |lon|*1000)`, and under the
numpy uniform contract the triplet satisfies `ndvi ∈ [0.1, 0.9]`,
`lst ∈ [5, 40]`, `precip ∈ [20, 450]`. -/
theorem c6_fallback_contract (np : NumpyModel) (lat lon lat' lon' : ℚ)
    (hc : UnitContract np) (h1 : lat = lat') (h2 : lon = lon') :
    fallback_satellite_values np lat lon = fallback_satellite_values np lat' lon'
    ∧ fallback_seed lat lon = pyInt (|lat| * 1000 + |lon| * 1000)
    ∧ 0.1 ≤ (fallback_satellite_values np lat lon).ndvi
    ∧ (fallback_satellite_values np lat lon).ndvi ≤ 0.9
    ∧ 5.0 ≤ (fallback_satellite_values np lat lon).lst
    ∧ (fallback_satellite_values np lat lon).lst ≤ 40.0
    ∧ 20.0 ≤ (fallback_satellite_values np lat lon).precip
    ∧ (fallback_satellite_values np lat lon).precip ≤ 450.0 := by
  subst h1
  subst h2
  have hn := uniformDraw_mem hc (fallback_seed lat lon) 0 (by norm_num : (0.1 : ℚ) ≤ 0.9)
  have hl := uniformDraw_mem hc (fallback_seed lat lon) 1 (by norm_num : (5.0 : ℚ) ≤ 40.0)
  have hp := uniformDraw_mem hc (fallback_seed lat lon) 2 (by norm_num : (20.0 : ℚ) ≤ 450.0)
  exact ⟨rfl, rfl, hn.1, hn.2, hl.1, hl.2, hp.1, hp.2⟩

/-- Witness for C6 at the coordinates of Tokyo, with a concrete
contract-satisfying generator model. -/
theorem c6_witness :
    fallback_satellite_values np0 35.68 139.76 = fallback_satellite_values np0 35.68 139.76
    ∧ 0.1 ≤ (fallback_satellite_values np0 35.68 139.76).ndvi := by
  have h := c6_fallback_contract np0 35.68 139.76 35.68 139.76
    (fun s k => by constructor <;> norm_num [np0]) rfl rfl
  exact ⟨h.1, h.2.2.1⟩

/-- Claim C7: for target month 2024-03-01 the previous-month window is
exactly 2024-02-01..2024-02-29 (leap year) and the two-months-before
window is exactly 2024-01-01..2024-01-31. -/
theorem c7_date_windows :
    previous_month_range ⟨2024, 3, 1⟩ = some ("2024-02-01", "2024-02-29")
    ∧ two_months_before_range ⟨2024, 3, 1⟩ = some ("2024-01-01", "2024-01-31") := by
  constructor <;> rfl

/-- Claim C10 counterexample: the valid target date 0001-01-01 steps back
into December of year 0, which `datetime.date` rejects, so
`previous_month_range` does not return a window there. -/
theorem c10_counterexample : previous_month_range ⟨1, 1, 1⟩ = none := rfl

/-- Claim C10 (amended): for every valid target date other than January of
year 1, `previous_month_range` returns the ISO first and last day of a
single calendar month (first day 1 ≤ last day, so start ≤ end), and for a
January target of year `y ≥ 2` the window is December 1 to December 31 of
year `y - 1`. -/
theorem c10_prev_month_window (y m d : ℕ) (hm1 : 1 ≤ m) (hm2 : m ≤ 12)
    (hy : 1 ≤ y) (hjan : m = 1 → 2 ≤ y) :
    previous_month_range ⟨y, m, d⟩ =
      some (isoDate (previous_month y m).1 (previous_month y m).2 1,
            isoDate (previous_month y m).1 (previous_month y m).2
              (monthrange_days (previous_month y m).1 (previous_month y m).2))
    ∧ 1 ≤ monthrange_days (previous_month y m).1 (previous_month y m).2
    ∧ (m = 1 → previous_month y m = (y - 1, 12) ∧ monthrange_days (y - 1) 12 = 31) := by
  have hy' : 1 ≤ (previous_month y m).1 := by
    unfold previous_month
    by_cases h : m = 1
    · rw [if_pos h]
      have := hjan h
      simp only
      omega
    · rw [if_neg h]
      exact hy
  refine ⟨?_, ?_, ?_⟩
  · simp only [previous_month_range]
    rw [if_neg (by omega : ¬ (previous_month y m).1 < 1)]
  · unfold monthrange_days
    split
    · split <;> norm_num
    · split <;> norm_num
  · intro h
    subst h
    exact ⟨by unfold previous_month; rw [if_pos rfl], rfl⟩

/-- Witness for C10 at target 2023-05-10. -/
theorem c10_witness :
    previous_month_range ⟨2023, 5, 10⟩ =
      some (isoDate 2023 4 1, isoDate 2023 4 (monthrange_days 2023 4)) := by
  have h := c10_prev_month_window 2023 5 10 (by norm_num) (by norm_num) (by norm_num)
    (by omega)
  exact h.1

/-- Claim C5: with `ndvi` and `lst` held fixed (none of these quantities
depends on them), a larger `precip` gives a water-body count and vertical
extent that are no smaller, a horizontal extent that is unchanged (always
252 pixels), and a rain-noise amplitude factor `0.04 * precip_n` that is
no smaller. -/
theorem c5_precip_monotone (p p' : ℚ) (h : p ≤ p') :
    water_count (normalize p 0.0 500.0) ≤ water_count (normalize p' 0.0 500.0)
    ∧ water_height (normalize p 0.0 500.0) ≤ water_height (normalize p' 0.0 500.0)
    ∧ (∀ x1 : ℤ, water_x2 x1 - x1 = 252)
    ∧ 0.04 * normalize p 0.0 500.0 ≤ 0.04 * normalize p' 0.0 500.0 := by
  have hn := normalize_mono (0.0 : ℚ) 500.0 h
  refine ⟨pyInt_mono (by linarith), pyInt_mono (by linarith), ?_, by linarith⟩
  intro x1
  unfold water_x2
  have h2 : ((x1 : ℚ) + 720 * 0.35) = ((x1 + 252 : ℤ) : ℚ) := by
    push_cast
    norm_num
  rw [h2, pyInt_intCast]
  omega

/-- Witness for C5 at `precip` 100 vs 400. -/
theorem c5_witness :
    water_count (normalize 100 0.0 500.0) ≤ water_count (normalize 400 0.0 500.0)
    ∧ water_x2 10 - 10 = 252 :=
  ⟨(c5_precip_monotone 100 400 (by norm_num)).1,
   (c5_precip_monotone 100 400 (by norm_num)).2.2.1 10⟩

/-- The sky gradient contains no overlay command. -/
theorem hasOverlay_gradient (l : ℚ) : hasOverlay (gradientCmds l) = false := by
  simp only [gradientCmds]
  apply hasOverlay_map_false
  intro b
  rfl

/-- The starfield contains no overlay command. -/
theorem hasOverlay_stars (np : NumpyModel) (s : ℤ) : hasOverlay (starCmds np s) = false := by
  simp only [starCmds]
  apply hasOverlay_map_false
  intro b
  rfl

/-- The water bodies contain no overlay command. -/
theorem hasOverlay_water (p : ℚ) (g : ℤ) : hasOverlay (waterCmds p g) = false := by
  simp only [waterCmds]
  apply hasOverlay_map_false
  intro b
  rfl

/-- The trees contain no overlay command. -/
theorem hasOverlay_trees (np : NumpyModel) (s : ℤ) (n : ℚ) (g : ℤ) :
    hasOverlay (treeCmds np s n g) = false := by
  simp only [treeCmds]
  apply hasOverlay_flatMap_false
  intro b
  rfl

/-- The ground band is not an overlay. -/
theorem hasOverlay_ground (n : ℚ) (g : ℤ) : hasOverlay [groundCmd n g] = false := rfl

/-- The celestial body is not an overlay. -/
theorem hasOverlay_celestial (l : ℚ) : hasOverlay [celestialCmd l] = false := rfl

/-- The glow segment contributes an overlay exactly when `lst_n > 0.5`. -/
theorem hasOverlay_glow (l : ℚ) : hasOverlay (glowCmds l) = decide (l > 0.5) := by
  unfold glowCmds
  split
  · rename_i h
    simp [hasOverlay, DrawCmd.isOverlay, h]
  · rename_i h
    simp [hasOverlay, h]

/-- The whole scene contains the overlay exactly when the normalized
temperature exceeds `0.5`. -/
theorem hasOverlay_create (np : NumpyModel) (ndvi lst precip : ℚ) :
    hasOverlay (create_space_landscape np ndvi lst precip) =
      decide (normalize lst (-10.0) 45.0 > 0.5) := by
  unfold create_space_landscape
  simp only [hasOverlay_append, hasOverlay_gradient, hasOverlay_stars, hasOverlay_ground,
    hasOverlay_water, hasOverlay_trees, hasOverlay_glow, hasOverlay_celestial,
    Bool.false_or, Bool.or_false]

/-- Claim C8: the warm translucent overlay is composited iff
`lst_n > 0.5`; its opacity `int(70 * lst_n)` is monotone in `lst`; and in
particular `lst = 30.0` produces the overlay while `lst = -5.0` does
not. -/
theorem c8_overlay_threshold (np : NumpyModel) (ndvi lst precip : ℚ) :
    (hasOverlay (create_space_landscape np ndvi lst precip) = true ↔
      normalize lst (-10.0) 45.0 > 0.5)
    ∧ (∀ l l' : ℚ, l ≤ l' →
        glow_alpha (normalize l (-10.0) 45.0) ≤ glow_alpha (normalize l' (-10.0) 45.0))
    ∧ hasOverlay (create_space_landscape np ndvi 30.0 precip) = true
    ∧ hasOverlay (create_space_landscape np ndvi (-5.0) precip) = false := by
  refine ⟨?_, ?_, ?_, ?_⟩
  · rw [hasOverlay_create]
    exact decide_eq_true_iff
  · intro l l' hll
    have := normalize_mono (-10.0 : ℚ) 45.0 hll
    exact pyInt_mono (by linarith)
  · rw [hasOverlay_create]
    simp only [decide_eq_true_eq]
    norm_num [normalize]
  · rw [hasOverlay_create]
    simp only [decide_eq_false_iff_not]
    norm_num [normalize]

/-- Witness for C8: the overlay-vs-threshold equivalence and the opacity
monotonicity evaluated at concrete temperatures. -/
theorem c8_witness :
    hasOverlay (create_space_landscape np0 0.8 30.0 10.0) = true
    ∧ glow_alpha (normalize 20.0 (-10.0) 45.0) ≤ glow_alpha (normalize 35.0 (-10.0) 45.0) :=
  ⟨(c8_overlay_threshold np0 0.8 30.0 10.0).2.2.1,
   (c8_overlay_threshold np0 0.8 30.0 10.0).2.1 20.0 35.0 (by norm_num)⟩

/-- Claim C1: both generators are deterministic — the image command list
and the audio result are functions of the inputs alone, because each call
builds its pseudo-random generator fresh from a seed computed only from
the inputs (`scene_seed` of the normalized triplet for the image,
`audioSeed` of the raw sum for the audio noise), and the generator model
replays the same stream for the same seed.  Equal inputs therefore give
byte-identical artifacts. -/
theorem c1_deterministic (np : NumpyModel) (ndvi lst precip : ℚ) (d : ℕ)
    (ndvi' lst' precip' : ℚ) (d' : ℕ)
    (h1 : ndvi = ndvi') (h2 : lst = lst') (h3 : precip = precip') (h4 : d = d') :
    create_space_landscape np ndvi lst precip = create_space_landscape np ndvi' lst' precip'
    ∧ synthesize_music np ndvi lst precip d = synthesize_music np ndvi' lst' precip' d' := by
  subst h1
  subst h2
  subst h3
  subst h4
  exact ⟨rfl, rfl⟩

/-- Witness for C1 at a concrete triplet and duration. -/
theorem c1_witness :
    create_space_landscape np0 0.5 20.0 100.0 = create_space_landscape np0 0.5 20.0 100.0
    ∧ synthesize_music np0 0.5 20.0 100.0 16 = synthesize_music np0 0.5 20.0 100.0 16 :=
  c1_deterministic np0 0.5 20.0 100.0 16 0.5 20.0 100.0 16 rfl rfl rfl rfl

/-- Claim C3 counterexample: at the well-formed triplet ndvi = 0,
lst = -10 °C, precip = 0 mm (all inside the spec's expected domains) the
audio noise seed `int((0 - 10 + 0) * 1000) = -10000` is negative, so
`np.random.default_rng` raises `ValueError` and `synthesize_music` does
not run to completion — a failure mode beyond the two degenerate cases
the claim admits. -/
theorem c3_counterexample : synthesize_music np0 0.0 (-10.0) 0.0 16 = none := by
  have e : audioSeed 0.0 (-10.0) 0.0 = pyInt ((-10000 : ℤ) : ℚ) := by
    unfold audioSeed
    norm_num
  have h : audioSeed 0.0 (-10.0) 0.0 < 0 := by
    rw [e, pyInt_intCast]
    norm_num
  unfold synthesize_music
  rw [if_pos h]

/-- Claim C3 (amended): `create_space_landscape` always completes (its
scene seed is nonnegative because the normalized components are), and
`synthesize_music` completes for every positive duration provided the
noise seed `int((ndvi+lst+precip)*1000)` is nonnegative; the degenerate
normalization domain and zero peak amplitude are indeed absorbed. -/
theorem c3_totality (np : NumpyModel) (ndvi lst precip : ℚ) (d : ℕ)
    (hd : 0 < d) (hseed : 0 ≤ audioSeed ndvi lst precip) :
    0 ≤ scene_seed (normalize ndvi 0.0 1.0) (normalize precip 0.0 500.0)
        (normalize lst (-10.0) 45.0)
    ∧ (synthesize_music np ndvi lst precip d).isSome = true := by
  constructor
  · unfold scene_seed
    apply pyInt_nonneg
    have h1 := normalize_nonneg ndvi 0.0 1.0
    have h2 := normalize_nonneg precip 0.0 500.0
    have h3 := normalize_nonneg lst (-10.0) 45.0
    linarith
  · unfold synthesize_music
    rw [if_neg (not_lt.mpr hseed), if_neg (by omega : ¬ d = 0)]
    rfl

/-- Witness for C3 at a concrete in-domain triplet with nonnegative noise
seed. -/
theorem c3_witness :
    (0 ≤ audioSeed 0.5 20.0 100.0)
    ∧ (synthesize_music np0 0.5 20.0 100.0 16).isSome = true := by
  have hs : 0 ≤ audioSeed 0.5 20.0 100.0 := by
    unfold audioSeed pyInt
    norm_num
  exact ⟨hs, (c3_totality np0 0.5 20.0 100.0 16 (by norm_num) hs).2⟩

/-- Claim C9 counterexample: the triplets (0, -0.001, 0) and
(0, -0.0005, 0) have the same floored scaled sum (⌊-1⌋ = ⌊-0.5⌋ = -1),
yet Python `int()` truncates the first to seed -1 (generator construction
fails) and the second to seed 0 (noise is produced), so the noise texture
is not a function of the floor. -/
theorem c9_counterexample :
    (⌊((0.0 + (-0.001) + 0.0) * 1000 : ℚ)⌋ = ⌊((0.0 + (-0.0005) + 0.0) * 1000 : ℚ)⌋)
    ∧ rain_noise_texture np0 0.0 (-0.001) 0.0 1 ≠ rain_noise_texture np0 0.0 (-0.0005) 0.0 1 := by
  constructor
  · norm_num
  · have e1 : audioSeed 0.0 (-0.001) 0.0 = pyInt ((-1 : ℤ) : ℚ) := by
      unfold audioSeed
      norm_num
    have h1 : audioSeed 0.0 (-0.001) 0.0 < 0 := by
      rw [e1, pyInt_intCast]
      norm_num
    have e2 : audioSeed 0.0 (-0.0005) 0.0 = ⌈(-(1/2) : ℚ)⌉ := by
      unfold audioSeed pyInt
      norm_num
    have h2 : ¬ audioSeed 0.0 (-0.0005) 0.0 < 0 := by
      rw [e2, Int.ceil_neg]
      norm_num
    unfold rain_noise_texture
    rw [if_pos h1, if_neg h2]
    simp

/-- Claim C9 (amended): the rain-noise texture depends only on the integer
truncation toward zero (Python `int()`) of `(ndvi + lst + precip) * 1000`:
two triplets with the same truncated scaled sum produce identical noise
results, for any conforming generator, even when the individual
measurements differ. -/
theorem c9_noise_seed_dependence (np : NumpyModel) (n1 l1 p1 n2 l2 p2 : ℚ) (count : ℕ)
    (h : audioSeed n1 l1 p1 = audioSeed n2 l2 p2) :
    rain_noise_texture np n1 l1 p1 count = rain_noise_texture np n2 l2 p2 count := by
  unfold rain_noise_texture
  rw [h]

/-- Witness for C9: two triplets with different components and different
scaled sums but the same truncated seed 500. -/
theorem c9_witness :
    (audioSeed 0.5001 0.0 0.0 = audioSeed 0.5 0.0 0.0002)
    ∧ rain_noise_texture np0 0.5001 0.0 0.0 8 = rain_noise_texture np0 0.5 0.0 0.0002 8 := by
  have h : audioSeed 0.5001 0.0 0.0 = audioSeed 0.5 0.0 0.0002 := by
    unfold audioSeed pyInt
    norm_num
  exact ⟨h, c9_noise_seed_dependence np0 0.5001 0.0 0.0 0.5 0.0 0.0002 8 h⟩

/-- Every quantized sample list passes the 16-bit range check. -/
theorem quantize_all_within (xs : List ℚ) :
    (quantize16 xs).all (fun s => decide (-32768 ≤ s) && decide (s ≤ 32767)) = true := by
  rw [List.all_eq_true]
  intro s hs
  unfold quantize16 at hs
  rw [List.mem_map] at hs
  obtain ⟨q, hq, rfl⟩ := hs
  have hb := toInt16_bounds (q * 32767)
  rw [Bool.and_eq_true, decide_eq_true_eq, decide_eq_true_eq]
  exact hb

/-- If the pre-normalization peak is at least 1/100, the peak-normalized,
quantized signal has a sample of absolute value at least 32766: dividing
by `peak + 1e-8` sends the peak sample to `peak/(peak + 1e-8)`, whose
product with 32767 lies in `[32766, 32767)` for any peak ≥ 1/100. -/
theorem quantized_peak_full_scale (xs : List ℚ) (hM : 1 / 100 ≤ maxAbs xs) :
    32766 ≤ maxAbsInt (quantize16 (peakNormalize xs)) := by
  have hMnn := maxAbs_nonneg xs
  have hD : (0 : ℚ) < maxAbs xs + 1e-8 := by linarith
  rcases maxAbs_attains xs with h0 | ⟨x0, hx0m, hx0⟩
  · rw [h0] at hM
    linarith
  · have hmemN : x0 / (maxAbs xs + 1e-8) ∈ peakNormalize xs := by
      unfold peakNormalize
      exact List.mem_map_of_mem (fun x => x / (maxAbs xs + 1e-8)) hx0m
    have hmemQ : toInt16 (x0 / (maxAbs xs + 1e-8) * 32767) ∈ quantize16 (peakNormalize xs) := by
      unfold quantize16
      exact List.mem_map_of_mem (fun x => toInt16 (x * 32767)) hmemN
    have habsv : |x0 / (maxAbs xs + 1e-8) * 32767| = maxAbs xs / (maxAbs xs + 1e-8) * 32767 := by
      rw [abs_mul, abs_div, ← hx0, abs_of_pos hD]
      norm_num
    have h1 : (32766 : ℚ) ≤ |x0 / (maxAbs xs + 1e-8) * 32767| := by
      rw [habsv, div_mul_eq_mul_div, le_div_iff₀ hD]
      linarith
    have h2 : |x0 / (maxAbs xs + 1e-8) * 32767| < 32767 := by
      rw [habsv, div_mul_eq_mul_div, div_lt_iff₀ hD]
      linarith
    have hle : |pyInt (x0 / (maxAbs xs + 1e-8) * 32767)| ≤ 32766 := by
      have hq := abs_pyInt_le (x0 / (maxAbs xs + 1e-8) * 32767)
      have hlt : ((|pyInt (x0 / (maxAbs xs + 1e-8) * 32767)| : ℤ) : ℚ) < 32767 := by
        rw [Int.cast_abs]
        exact lt_of_le_of_lt hq h2
      have hlt' : |pyInt (x0 / (maxAbs xs + 1e-8) * 32767)| < (32767 : ℤ) := by
        exact_mod_cast hlt
      omega
    have hge : (32766 : ℤ) ≤ |pyInt (x0 / (maxAbs xs + 1e-8) * 32767)| := by
      rcases le_or_lt 0 (x0 / (maxAbs xs + 1e-8) * 32767) with hv0 | hv0
      · have he : pyInt (x0 / (maxAbs xs + 1e-8) * 32767) = ⌊x0 / (maxAbs xs + 1e-8) * 32767⌋ := by
          unfold pyInt
          rw [if_pos hv0]
        rw [he]
        have h32 : (32766 : ℚ) ≤ x0 / (maxAbs xs + 1e-8) * 32767 := by
          rwa [abs_of_nonneg hv0] at h1
        have hf : (32766 : ℤ) ≤ ⌊x0 / (maxAbs xs + 1e-8) * 32767⌋ :=
          Int.le_floor.mpr (by exact_mod_cast h32)
        exact le_trans hf (le_abs_self _)
      · have he : pyInt (x0 / (maxAbs xs + 1e-8) * 32767) = ⌈x0 / (maxAbs xs + 1e-8) * 32767⌉ := by
          unfold pyInt
          rw [if_neg (not_le.mpr hv0)]
        rw [he]
        have h32 : x0 / (maxAbs xs + 1e-8) * 32767 ≤ -32766 := by
          rw [abs_of_neg hv0] at h1
          linarith
        have hc : ⌈x0 / (maxAbs xs + 1e-8) * 32767⌉ ≤ -32766 :=
          Int.ceil_le.mpr (by exact_mod_cast h32)
        rw [abs_of_nonpos (by omega)]
        omega
    have hwrap : toInt16 (x0 / (maxAbs xs + 1e-8) * 32767) =
        pyInt (x0 / (maxAbs xs + 1e-8) * 32767) := by
      rcases abs_le.mp hle with ⟨ha, hb⟩
      exact toInt16_eq_pyInt (by omega) (by omega)
    calc (32766 : ℤ) ≤ |pyInt (x0 / (maxAbs xs + 1e-8) * 32767)| := hge
      _ = |toInt16 (x0 / (maxAbs xs + 1e-8) * 32767)| := by rw [hwrap]
      _ ≤ maxAbsInt (quantize16 (peakNormalize xs)) := abs_le_maxAbsInt hmemQ

/-- Claim C4: every sample of the quantized audio of `synthesize_music`
lies in `[-32768, 32767]`; the encoded frames are exactly the
peak-normalized, quantized raw mix; and for any non-silent input (peak at
least 1/100 before normalization) the maximum absolute quantized sample
is at least 32766, i.e. within one step of full scale 32767, because the
division by `peak + 1e-8` sends the loudest sample essentially to full
scale. -/
theorem c4_audio_bounds (np : NumpyModel) (ndvi lst precip : ℚ) (d : ℕ) :
    framesWithin (synthesize_music np ndvi lst precip d) = true
    ∧ (0 ≤ audioSeed ndvi lst precip → d ≠ 0 →
        synthesize_music np ndvi lst precip d =
          some ⟨1, 2, 44100, quantize16 (peakNormalize (rawAudio np ndvi lst precip d))⟩)
    ∧ (1 / 100 ≤ maxAbs (rawAudio np ndvi lst precip d) →
        32766 ≤ maxAbsInt (quantize16 (peakNormalize (rawAudio np ndvi lst precip d)))) := by
  refine ⟨?_, ?_, fun h => quantized_peak_full_scale _ h⟩
  · unfold synthesize_music
    split_ifs with h1 h2
    · rfl
    · rfl
    · unfold framesWithin
      exact quantize_all_within _
  · intro hseed hd
    unfold synthesize_music
    rw [if_neg (not_lt.mpr hseed), if_neg hd]

/-- Witness for C4: a duration-1 run whose sample 0 equals 0.37, so the
non-silence hypothesis holds concretely and the quantized peak reaches at
least 32766. -/
theorem c4_witness :
    (1 / 100 : ℚ) ≤ maxAbs (rawAudio np1 0.0 0.0 0.0 1)
    ∧ 32766 ≤ maxAbsInt (quantize16 (peakNormalize (rawAudio np1 0.0 0.0 0.0 1))) := by
  have hmem : audioSample np1 0.0 0.0 0.0 1 0 ∈ rawAudio np1 0.0 0.0 0.0 1 := by
    unfold rawAudio
    exact List.mem_map_of_mem (audioSample np1 0.0 0.0 0.0 1)
      (List.mem_range.mpr (by norm_num))
  have hval : audioSample np1 0.0 0.0 0.0 1 0 = 37 / 100 := by
    norm_num [audioSample, normalize, pySign, np1, np_pi, audioSeed, pyInt]
  have h1 : (1 / 100 : ℚ) ≤ |audioSample np1 0.0 0.0 0.0 1 0| := by
    rw [hval, abs_of_nonneg (by norm_num : (0 : ℚ) ≤ 37 / 100)]
    norm_num
  have h : (1 / 100 : ℚ) ≤ maxAbs (rawAudio np1 0.0 0.0 0.0 1) :=
    le_trans h1 (abs_le_maxAbs hmem)
  exact ⟨h, (c4_audio_bounds np1 0.0 0.0 0.0 1).2.2 h⟩

end App
